import Mathlib

/-!
# Verification of `examples/agents/python_agent.py` (bhoult/mutation)

Shallow embedding of the example Python agent: JSON-like values (`PyVal`),
the decision function `choose_action`, the memory store (`load_memory` /
`save_memory`) and the read-decide-persist-emit loop of `main`.

Python dictionaries are modelled as association lists in insertion order
(`dictGet` is lookup by key, `dictSet` replaces in place or appends, matching
Python dict update semantics).  Dictionaries produced by `json.load` have
unique keys, so association lists with distinct keys model them faithfully.
The JSON fragment modelled is integers, strings, arrays and objects (the spec
restricts energies to integers; positions are opaque values).
-/

set_option autoImplicit false

namespace PythonAgent

/-- JSON-like Python values: integers, strings, lists and (string-keyed)
dictionaries in insertion order. -/
inductive PyVal where
  | int (n : Int)
  | str (s : String)
  | list (xs : List PyVal)
  | dict (kvs : List (String × PyVal))

/-- First-match lookup, `d[k]` / `d.get(k)` on a Python dict. -/
def dictGet : List (String × PyVal) → String → Option PyVal
  | [], _ => none
  | (k, v) :: rest, key => if k = key then some v else dictGet rest key

/-- `d[k] = v` on a Python dict: replace the value in place if the key is
present (keeping its position), otherwise append the new entry. -/
def dictSet : List (String × PyVal) → String → PyVal → List (String × PyVal)
  | [], key, val => [(key, val)]
  | (k, v) :: rest, key, val =>
      if k = key then (k, val) :: rest else (k, v) :: dictSet rest key val

/-- `xs[-n:]` on a Python list: the `n` most recent elements, oldest first. -/
def lastN (n : Nat) (xs : List PyVal) : List PyVal := xs.drop (xs.length - n)

/-- Using a value as an integer (`+`, `>=` …); any other type raises. -/
def asInt : PyVal → Except String Int
  | .int n => .ok n
  | _ => .error "TypeError: expected int"

/-- Using a value as a list (`.append`, slicing); any other type raises. -/
def asList : PyVal → Except String (List PyVal)
  | .list xs => .ok xs
  | _ => .error "TypeError: expected list"

/-- Using a value as a dict (`[...]`, `.get`, `.values`); any other type
raises. -/
def asDict : PyVal → Except String (List (String × PyVal))
  | .dict kvs => .ok kvs
  | _ => .error "TypeError: expected dict"

/-- `d[k]` on a dict: `KeyError` when the key is absent. -/
def getItem (kvs : List (String × PyVal)) (k : String) : Except String PyVal :=
  match dictGet kvs k with
  | some v => .ok v
  | none => .error ("KeyError: " ++ k)

/-- `memory.get(k, default)` followed by integer use: the default when the
key is absent, a type error when the stored value is not an integer. -/
def getIntD (kvs : List (String × PyVal)) (k : String) (d : Int) :
    Except String Int :=
  match dictGet kvs k with
  | none => .ok d
  | some v => asInt v

/-- `memory.get(k, [])` followed by list use. -/
def getListD (kvs : List (String × PyVal)) (k : String) (d : List PyVal) :
    Except String (List PyVal) :=
  match dictGet kvs k with
  | none => .ok d
  | some v => asList v

/-- `info['energy']` for one neighbor, coerced to an integer. -/
def neighborEnergy (info : PyVal) : Except String Int := do
  let i ← asDict info
  let e ← getItem i "energy"
  asInt e

/-- Energies of all neighbors in iteration (insertion) order, as evaluated by
the `sum(... for info in neighbors.values() ...)` generator; the first
malformed neighbor raises. -/
def neighborEnergies : List (String × PyVal) → Except String (List (String × Int))
  | [] => .ok []
  | (d, info) :: rest => do
      let e ← neighborEnergy info
      let es ← neighborEnergies rest
      .ok ((d, e) :: es)

/-- `threats = sum(1 for info in neighbors.values() if info['energy'] >= my_energy)`,
on the extracted `(direction, energy)` pairs. -/
def threatsOf (my_energy : Int) (ns : List (String × Int)) : Nat :=
  (ns.filter (fun q => my_energy ≤ q.2)).length

/-- `{d: info for d, info in neighbors.items() if info['energy'] > 0 and
info['energy'] >= my_energy - 2}`, on the extracted pairs. -/
def threateningOf (my_energy : Int) (ns : List (String × Int)) : List (String × Int) :=
  ns.filter (fun q => 0 < q.2 ∧ my_energy - 2 ≤ q.2)

/-- `min(iterable, key=...)` on a non-empty list keyed by the second
component: Python's `min` keeps the current element on ties, so it returns the
first minimum encountered. -/
def pyMinAux (cur : String × Int) : List (String × Int) → String × Int
  | [] => cur
  | x :: xs => pyMinAux (if x.2 < cur.2 then x else cur) xs

/-- `{'action': 'rest'}` -/
def actRest : PyVal := .dict [("action", .str "rest")]

/-- `{'action': 'replicate'}` -/
def actReplicate : PyVal := .dict [("action", .str "replicate")]

/-- `{'action': 'attack', 'target': d}` -/
def actAttack (d : String) : PyVal :=
  .dict [("action", .str "attack"), ("target", .str d)]

/-- `memory[k] = memory.get(k, 0) + 1` -/
def bumpCounter (kvs : List (String × PyVal)) (k : String) :
    Except String (List (String × PyVal)) := do
  let n ← getIntD kvs k 0
  .ok (dictSet kvs k (.int (n + 1)))

/-- `choose_action(world_state, memory)` from `python_agent.py`.  Any Python
exception (missing key, wrong type) is an `.error`; in `main` it is caught by
the outer `try` and turned into the fallback action. -/
def choose_action (world_state memory : PyVal) : Except String (PyVal × PyVal) := do
  let ws ← asDict world_state
  let neighborsV ← getItem ws "neighbors"
  let my_energyV ← getItem ws "energy"
  let my_energy ← asInt my_energyV
  let position ← getItem ws "position"
  -- Update memory
  let mem0 ← asDict memory
  let tp ← getIntD mem0 "turns_played" 0
  let mem1 := dictSet mem0 "turns_played" (.int (tp + 1))
  let pv ← getListD mem1 "positions_visited" []
  let pv2 := lastN 20 (pv ++ [position])  -- append, keep last 20
  let mem2 := dictSet mem1 "positions_visited" (.list pv2)
  -- Count threats (neighbors with energy >= our energy)
  let neighbors ← asDict neighborsV
  let energies ← neighborEnergies neighbors
  let threats := threatsOf my_energy energies
  if 2 ≤ threats ∧ my_energy ≤ 4 then
    -- Multiple threats and low energy - try to replicate before dying
    if 3 ≤ my_energy then
      let mem3 ← bumpCounter mem2 "emergency_replications"
      .ok (actReplicate, .dict mem3)
    else
      .ok (actRest, .dict mem2)
  else if 10 ≤ my_energy then
    -- High energy - safe to replicate
    let mem3 ← bumpCounter mem2 "replications_made"
    .ok (actReplicate, .dict mem3)
  else if 0 < threats then
    -- Some threats - attack the weakest one that's still threatening
    match threateningOf my_energy energies with
    | [] => .ok (actRest, .dict mem2)
    | t :: ts =>
        let target_dir := (pyMinAux t ts).1
        let mem3 ← bumpCounter mem2 "defensive_attacks"
        .ok (actAttack target_dir, .dict mem3)
  else
    -- No immediate threats - rest to build energy
    let mem3 ← bumpCounter mem2 "peaceful_rests"
    .ok (actRest, .dict mem3)

/-- The persistent per-identity file, modelled as the JSON document it holds
(`none` = file missing or unparseable).  The JSON text encoding itself is the
external `json` module, which the spec treats as I/O plumbing outside the
core. -/
abbrev FileState := Option PyVal

/-- `load_memory()`: the parsed file contents, or `{}` when the file is
missing or corrupt (the `except: return {}` branch). -/
def load_memory : FileState → PyVal
  | some v => v
  | none => .dict []

/-- `save_memory(memory)`: overwrite the file with the full memory snapshot
(the silently-suppressed write failure is an external I/O event and is not
modelled). -/
def save_memory (fs : FileState) (memory : PyVal) : FileState :=
  let _ := fs
  some memory

/-- Fallback action printed by the `except` clause of `main`:
`{'action': 'rest', 'message': f'Error: {str(e)}'}`. -/
def errAction (e : String) : PyVal :=
  .dict [("action", .str "rest"), ("message", .str ("Error: " ++ e))]

/-- One stdin line after `json.loads`: either the parsed observation or the
exception message raised while parsing. -/
abbrev Line := Except String PyVal

/-- The `for line in sys.stdin` loop of `main`, inside its `try`: returns the
actions printed to stdout and the final file state.  The `try/except`
encloses the whole loop, so the first exception (parse failure or decision
failure) prints the fallback action and ends the loop. -/
def mainLoop : List Line → PyVal → FileState → List PyVal × FileState
  | [], _, fs => ([], fs)
  | line :: rest, memory, fs =>
    match line with
    | .error e => ([errAction e], fs)
    | .ok world_state =>
      match choose_action world_state memory with
      | .error e => ([errAction e], fs)
      | .ok (action, updated_memory) =>
          let fs' := save_memory fs updated_memory
          let (outs, fsF) := mainLoop rest updated_memory fs'
          (action :: outs, fsF)

/-- `main()`: load memory, then run the loop over stdin. -/
def main (input : List Line) (fs : FileState) : List PyVal × FileState :=
  mainLoop input (load_memory fs) fs

/-- Iterated calls of the decision engine (memory threading only), for
multi-turn properties. -/
def iterDecide : List PyVal → PyVal → Except String PyVal
  | [], m => .ok m
  | o :: os, m => do
      let (_, m') ← choose_action o m
      iterDecide os m'

/-- The canonical embedding of a data-model `WorldObservation`: an opaque
position, an integer energy and a direction → `{energy: _}` map. -/
def mkObs (p : PyVal) (energy : Int) (ns : List (String × Int)) : PyVal :=
  .dict [("position", p), ("energy", .int energy),
         ("neighbors", .dict (ns.map (fun q => (q.1, .dict [("energy", .int q.2)]))))]

/-! ## Well-typed memories and the total form of the decision function

`choose_action` only raises on a memory whose bookkeeping fields hold values
of the wrong type.  On memories where each tracked field is absent or has its
data-model type, it agrees with the total function `chooseActionT` below,
which mirrors the source branch for branch. -/

/-- `memory.get(k, d)` when the stored value is known to be an integer (or
absent). -/
def pyGetIntD (kvs : List (String × PyVal)) (k : String) (d : Int) : Int :=
  match dictGet kvs k with
  | some (.int n) => n
  | _ => d

/-- `memory.get(k, [])` when the stored value is known to be a list (or
absent). -/
def pyGetListD (kvs : List (String × PyVal)) (k : String) : List PyVal :=
  match dictGet kvs k with
  | some (.list xs) => xs
  | _ => []

/-- The looked-up value is absent or an integer. -/
def isIntOpt : Option PyVal → Bool
  | none => true
  | some (.int _) => true
  | some _ => false

/-- The looked-up value is absent or a list. -/
def isListOpt : Option PyVal → Bool
  | none => true
  | some (.list _) => true
  | some _ => false

/-- Well-typed memory: each field that `choose_action` reads is absent or has
its data-model type.  Every other key is unconstrained. -/
def WtMem (kvs : List (String × PyVal)) : Bool :=
  isIntOpt (dictGet kvs "turns_played") &&
  isListOpt (dictGet kvs "positions_visited") &&
  isIntOpt (dictGet kvs "replications_made") &&
  isIntOpt (dictGet kvs "emergency_replications") &&
  isIntOpt (dictGet kvs "defensive_attacks") &&
  isIntOpt (dictGet kvs "peaceful_rests")

/-- Total form of `memory[k] = memory.get(k, 0) + 1`. -/
def bump (kvs : List (String × PyVal)) (k : String) : List (String × PyVal) :=
  dictSet kvs k (.int (pyGetIntD kvs k 0 + 1))

/-- The unconditional bookkeeping step: increment `turns_played`, append the
position and keep the last 20 entries. -/
def bookkeeping (p : PyVal) (m : List (String × PyVal)) : List (String × PyVal) :=
  let mem1 := dictSet m "turns_played" (.int (pyGetIntD m "turns_played" 0 + 1))
  dictSet mem1 "positions_visited"
    (.list (lastN 20 (pyGetListD mem1 "positions_visited" ++ [p])))

/-- Total form of `choose_action` on a data-model observation and a well-typed
memory (see `choose_action_mkObs`). -/
def chooseActionT (p : PyVal) (my_energy : Int) (ns : List (String × Int))
    (m : List (String × PyVal)) : PyVal × List (String × PyVal) :=
  let mem2 := bookkeeping p m
  let threats := threatsOf my_energy ns
  if 2 ≤ threats ∧ my_energy ≤ 4 then
    if 3 ≤ my_energy then (actReplicate, bump mem2 "emergency_replications")
    else (actRest, mem2)
  else if 10 ≤ my_energy then (actReplicate, bump mem2 "replications_made")
  else if 0 < threats then
    match threateningOf my_energy ns with
    | [] => (actRest, mem2)
    | t :: ts => (actAttack (pyMinAux t ts).1, bump mem2 "defensive_attacks")
  else (actRest, bump mem2 "peaceful_rests")

/-! ## Dictionary lemmas -/

theorem dictGet_dictSet (kvs : List (String × PyVal)) (k k' : String) (v : PyVal) :
    dictGet (dictSet kvs k v) k' = if k = k' then some v else dictGet kvs k' := by
  induction kvs with
  | nil =>
      by_cases h : k = k' <;> simp [dictSet, dictGet, h]
  | cons kv rest ih =>
      obtain ⟨k0, v0⟩ := kv
      by_cases h0 : k0 = k
      · subst h0
        by_cases h : k0 = k' <;> simp [dictSet, dictGet, h]
      · by_cases h : k0 = k'
        · subst h
          simp [dictSet, dictGet, h0, Ne.symm h0]
        · simp [dictSet, dictGet, h0, h, ih]

theorem getIntD_eq (kvs : List (String × PyVal)) (k : String) (d : Int)
    (h : isIntOpt (dictGet kvs k) = true) :
    getIntD kvs k d = .ok (pyGetIntD kvs k d) := by
  unfold getIntD pyGetIntD
  cases hg : dictGet kvs k with
  | none => rfl
  | some v => cases v <;> simp_all [isIntOpt, asInt]

theorem getListD_eq (kvs : List (String × PyVal)) (k : String)
    (h : isListOpt (dictGet kvs k) = true) :
    getListD kvs k [] = .ok (pyGetListD kvs k) := by
  unfold getListD pyGetListD
  cases hg : dictGet kvs k with
  | none => rfl
  | some v => cases v <;> simp_all [isListOpt, asList]

theorem bumpCounter_eq (kvs : List (String × PyVal)) (k : String)
    (h : isIntOpt (dictGet kvs k) = true) :
    bumpCounter kvs k = .ok (bump kvs k) := by
  unfold bumpCounter bump
  rw [getIntD_eq kvs k 0 h]
  rfl

theorem neighborEnergies_map (ns : List (String × Int)) :
    neighborEnergies (ns.map (fun q => (q.1, .dict [("energy", .int q.2)]))) = .ok ns := by
  induction ns with
  | nil => rfl
  | cons q rest ih =>
      simp only [List.map_cons, neighborEnergies, ih]
      rfl


theorem ok_bind {α β : Type} (a : α) (f : α → Except String β) :
    (Except.ok a >>= f) = f a := rfl

theorem WtMem_parts {m : List (String × PyVal)} (h : WtMem m = true) :
    isIntOpt (dictGet m "turns_played") = true ∧
    isListOpt (dictGet m "positions_visited") = true ∧
    isIntOpt (dictGet m "replications_made") = true ∧
    isIntOpt (dictGet m "emergency_replications") = true ∧
    isIntOpt (dictGet m "defensive_attacks") = true ∧
    isIntOpt (dictGet m "peaceful_rests") = true := by
  simp only [WtMem, Bool.and_eq_true] at h
  tauto

theorem dictGet_after_bookkeeping (m : List (String × PyVal)) (v1 v2 : PyVal)
    (k : String) (h1 : "turns_played" ≠ k) (h2 : "positions_visited" ≠ k) :
    dictGet (dictSet (dictSet m "turns_played" v1) "positions_visited" v2) k =
      dictGet m k := by
  rw [dictGet_dictSet, dictGet_dictSet, if_neg h2, if_neg h1]

def okPair (r : PyVal × List (String × PyVal)) : Except String (PyVal × PyVal) :=
  .ok (r.1, .dict r.2)

theorem choose_action_mkObs (p : PyVal) (e : Int) (ns : List (String × Int))
    (m : List (String × PyVal)) (hm : WtMem m = true) :
    choose_action (mkObs p e ns) (PyVal.dict m) = okPair (chooseActionT p e ns m) := by
  obtain ⟨h1, h2, h3, h4, h5, h6⟩ := WtMem_parts hm
  simp only [choose_action, mkObs, asDict, ok_bind]
  simp only [getItem, dictGet]
  simp [asInt, ok_bind, neighborEnergies_map]
  rw [getIntD_eq _ _ _ h1]
  simp only [ok_bind]
  rw [getListD_eq]
  case h => rw [dictGet_dictSet, if_neg (by decide)]; exact h2
  simp only [ok_bind]
  unfold chooseActionT
  simp only [okPair]
  by_cases hc1 : 2 ≤ threatsOf e ns ∧ e ≤ 4
  · by_cases hc2 : 3 ≤ e
    · simp only [if_pos hc1, if_pos hc2]
      rw [bumpCounter_eq]
      · exact rfl
      · rw [dictGet_after_bookkeeping _ _ _ _ (by decide) (by decide)]; exact h4
    · simp only [if_pos hc1, if_neg hc2]
      exact rfl
  · by_cases hc3 : 10 ≤ e
    · simp only [if_neg hc1, if_pos hc3]
      rw [bumpCounter_eq]
      · exact rfl
      · rw [dictGet_after_bookkeeping _ _ _ _ (by decide) (by decide)]; exact h3
    · by_cases hc4 : 0 < threatsOf e ns
      · simp only [if_neg hc1, if_neg hc3, if_pos hc4]
        cases hth : threateningOf e ns with
        | nil => rfl
        | cons t ts =>
            rw [bumpCounter_eq]
            · exact rfl
            · rw [dictGet_after_bookkeeping _ _ _ _ (by decide) (by decide)]; exact h5
      · simp only [if_neg hc1, if_neg hc3, if_neg hc4]
        rw [bumpCounter_eq]
        · exact rfl
        · rw [dictGet_after_bookkeeping _ _ _ _ (by decide) (by decide)]; exact h6

/-! ## Reading fields of the updated memory -/

theorem dictGet_bump_self (m : List (String × PyVal)) (k : String) :
    dictGet (bump m k) k = some (.int (pyGetIntD m k 0 + 1)) := by
  unfold bump
  rw [dictGet_dictSet, if_pos rfl]

theorem dictGet_bump_ne (m : List (String × PyVal)) (k k' : String) (h : k ≠ k') :
    dictGet (bump m k) k' = dictGet m k' := by
  unfold bump
  rw [dictGet_dictSet, if_neg h]

theorem dictGet_bookkeeping_tp (p : PyVal) (m : List (String × PyVal)) :
    dictGet (bookkeeping p m) "turns_played" =
      some (.int (pyGetIntD m "turns_played" 0 + 1)) := by
  unfold bookkeeping
  rw [dictGet_dictSet, if_neg (by decide), dictGet_dictSet, if_pos rfl]

theorem pyGetListD_dictSet_ne (m : List (String × PyVal)) (k k' : String)
    (v : PyVal) (h : k ≠ k') :
    pyGetListD (dictSet m k v) k' = pyGetListD m k' := by
  unfold pyGetListD
  rw [dictGet_dictSet, if_neg h]

theorem dictGet_bookkeeping_pv (p : PyVal) (m : List (String × PyVal)) :
    dictGet (bookkeeping p m) "positions_visited" =
      some (.list (lastN 20 (pyGetListD m "positions_visited" ++ [p]))) := by
  unfold bookkeeping
  rw [dictGet_dictSet, if_pos rfl, pyGetListD_dictSet_ne _ _ _ _ (by decide)]

theorem dictGet_bookkeeping_other (p : PyVal) (m : List (String × PyVal))
    (k : String) (h1 : "turns_played" ≠ k) (h2 : "positions_visited" ≠ k) :
    dictGet (bookkeeping p m) k = dictGet m k := by
  unfold bookkeeping
  rw [dictGet_dictSet, if_neg h2, dictGet_dictSet, if_neg h1]

theorem pyGetIntD_congr (m m' : List (String × PyVal)) (k : String) (d : Int)
    (h : dictGet m k = dictGet m' k) : pyGetIntD m k d = pyGetIntD m' k d := by
  unfold pyGetIntD
  rw [h]

/-- The memory returned by `chooseActionT` is the bookkeeping update followed
by at most one counter increment. -/
theorem chooseActionT_snd_cases (p : PyVal) (e : Int) (ns : List (String × Int))
    (m : List (String × PyVal)) :
    (chooseActionT p e ns m).2 = bookkeeping p m ∨
    ∃ k, (k = "replications_made" ∨ k = "emergency_replications" ∨
          k = "defensive_attacks" ∨ k = "peaceful_rests") ∧
      (chooseActionT p e ns m).2 = bump (bookkeeping p m) k := by
  unfold chooseActionT
  by_cases hc1 : 2 ≤ threatsOf e ns ∧ e ≤ 4
  · by_cases hc2 : 3 ≤ e
    · right; exact ⟨"emergency_replications", by simp, by simp [if_pos hc1, if_pos hc2]⟩
    · left; simp [if_pos hc1, if_neg hc2]
  · by_cases hc3 : 10 ≤ e
    · right; exact ⟨"replications_made", by simp, by simp [if_neg hc1, if_pos hc3]⟩
    · by_cases hc4 : 0 < threatsOf e ns
      · cases hth : threateningOf e ns with
        | nil => left; simp [if_neg hc1, if_neg hc3, if_pos hc4, hth]
        | cons t ts =>
            right
            exact ⟨"defensive_attacks", by simp,
              by simp [if_neg hc1, if_neg hc3, if_pos hc4, hth]⟩
      · right
        exact ⟨"peaceful_rests", by simp, by simp [if_neg hc1, if_neg hc3, if_neg hc4]⟩

/-! ## Claims -/

/-- C8: the decision engine is deterministic — two calls of `choose_action`
on identical observation and identical memory return the identical action and
updated memory (the embedded function uses no randomness, time or other
ambient state). -/
theorem claim_C8_deterministic (o1 o2 m1 m2 : PyVal) (ho : o1 = o2)
    (hm : m1 = m2) : choose_action o1 m1 = choose_action o2 m2 := by
  rw [ho, hm]

/-- Witness for C8 at a concrete observation and memory. -/
theorem claim_C8_deterministic_witness :
    choose_action (mkObs (.str "p") 1 []) (.dict []) =
      choose_action (mkObs (.str "p") 1 []) (.dict []) :=
  claim_C8_deterministic _ _ _ _ rfl rfl

/-- C7: saving a memory value and loading it back for the same identity is
the identity on memory contents, whatever the file held before (the file is
modelled as the JSON document it stores; the text encoding is the external
`json` module). -/
theorem claim_C7_save_load_roundtrip (fs : FileState) (memory : PyVal) :
    load_memory (save_memory fs memory) = memory := rfl

/-- C6: on every well-formed observation and well-typed memory, `choose_action`
returns exactly one action and an updated memory whose `turns_played` is
exactly one more than the previous value (`memory.get('turns_played', 0)`). -/
theorem claim_C6_one_action_turns_increment (p : PyVal) (e : Int)
    (ns : List (String × Int)) (m : List (String × PyVal)) (hm : WtMem m = true) :
    ∃ a m', choose_action (mkObs p e ns) (PyVal.dict m) = .ok (a, .dict m') ∧
      dictGet m' "turns_played" = some (.int (pyGetIntD m "turns_played" 0 + 1)) := by
  refine ⟨(chooseActionT p e ns m).1, (chooseActionT p e ns m).2,
    by rw [choose_action_mkObs p e ns m hm]; rfl, ?_⟩
  rcases chooseActionT_snd_cases p e ns m with h | ⟨k, hk, h⟩
  · rw [h, dictGet_bookkeeping_tp]
  · rw [h, dictGet_bump_ne _ _ _ (by rcases hk with rfl | rfl | rfl | rfl <;> decide),
      dictGet_bookkeeping_tp]

/-- Witness for C6: first turn from the empty memory gives `turns_played = 1`. -/
theorem claim_C6_one_action_turns_increment_witness :
    WtMem [] = true ∧
    ∃ a m', choose_action (mkObs (.str "p") 1 []) (PyVal.dict []) = .ok (a, .dict m') ∧
      dictGet m' "turns_played" = some (.int (pyGetIntD [] "turns_played" 0 + 1)) :=
  ⟨by decide, claim_C6_one_action_turns_increment (.str "p") 1 [] [] (by decide)⟩

/-- C3: whenever at least two neighbors have energy `≥ my_energy`,
`my_energy ≤ 4` and `my_energy ≥ 3`, the action is `replicate`,
`emergency_replications` is incremented by exactly 1, and
`replications_made`, `defensive_attacks` and `peaceful_rests` are unchanged. -/
theorem claim_C3_emergency_replication (p : PyVal) (e : Int)
    (ns : List (String × Int)) (m : List (String × PyVal)) (hm : WtMem m = true)
    (hth : 2 ≤ threatsOf e ns) (hle : e ≤ 4) (hge : 3 ≤ e) :
    ∃ m', choose_action (mkObs p e ns) (PyVal.dict m) = .ok (actReplicate, .dict m') ∧
      dictGet m' "emergency_replications" =
        some (.int (pyGetIntD m "emergency_replications" 0 + 1)) ∧
      dictGet m' "replications_made" = dictGet m "replications_made" ∧
      dictGet m' "defensive_attacks" = dictGet m "defensive_attacks" ∧
      dictGet m' "peaceful_rests" = dictGet m "peaceful_rests" := by
  have heq := choose_action_mkObs p e ns m hm
  have hT : chooseActionT p e ns m =
      (actReplicate, bump (bookkeeping p m) "emergency_replications") := by
    unfold chooseActionT
    rw [if_pos ⟨hth, hle⟩, if_pos hge]
  refine ⟨bump (bookkeeping p m) "emergency_replications", ?_, ?_, ?_, ?_, ?_⟩
  · rw [heq, hT]; rfl
  · rw [dictGet_bump_self,
      pyGetIntD_congr _ m _ 0 (dictGet_bookkeeping_other p m _ (by decide) (by decide))]
  · rw [dictGet_bump_ne _ _ _ (by decide),
      dictGet_bookkeeping_other p m _ (by decide) (by decide)]
  · rw [dictGet_bump_ne _ _ _ (by decide),
      dictGet_bookkeeping_other p m _ (by decide) (by decide)]
  · rw [dictGet_bump_ne _ _ _ (by decide),
      dictGet_bookkeeping_other p m _ (by decide) (by decide)]

/-- Witness for C3: energy 3, two threatening neighbors, empty memory. -/
theorem claim_C3_emergency_replication_witness :
    WtMem [] = true ∧ 2 ≤ threatsOf 3 [("N", 5), ("S", 3)] ∧ (3 : Int) ≤ 4 ∧
      (3 : Int) ≤ 3 ∧
    ∃ m', choose_action (mkObs (.str "p") 3 [("N", 5), ("S", 3)]) (PyVal.dict []) =
        .ok (actReplicate, .dict m') ∧
      dictGet m' "emergency_replications" =
        some (.int (pyGetIntD [] "emergency_replications" 0 + 1)) ∧
      dictGet m' "replications_made" = dictGet [] "replications_made" ∧
      dictGet m' "defensive_attacks" = dictGet [] "defensive_attacks" ∧
      dictGet m' "peaceful_rests" = dictGet [] "peaceful_rests" :=
  ⟨by decide, by decide, by decide, by decide,
    claim_C3_emergency_replication (.str "p") 3 [("N", 5), ("S", 3)] []
      (by decide) (by decide) (by decide) (by decide)⟩

/-- C2 counterexample: with `my_energy = 0` and a single neighbor of energy 0,
the defensive-attack branch is reached (`threats = 1 > 0`, emergency and
safe-growth do not match), yet the threatening-neighbor subset is empty —
the neighbor fails the `energy > 0` half of the filter — so the
empty-subset fallback fires: the action is `rest` and no counter (in
particular not `defensive_attacks`) is incremented. -/
theorem claim_C2_counterexample :
    (0 < threatsOf 0 [("N", 0)] ∧
      ¬(2 ≤ threatsOf 0 [("N", 0)] ∧ (0 : Int) ≤ 4) ∧ ¬((10 : Int) ≤ 0)) ∧
    threateningOf 0 [("N", 0)] = [] ∧
    choose_action (mkObs (.str "X") 0 [("N", 0)]) (.dict []) =
      .ok (actRest, .dict [("turns_played", .int 1),
                           ("positions_visited", .list [.str "X"])]) :=
  ⟨by refine ⟨by decide, ?_, by decide⟩; rintro ⟨h, -⟩; exact absurd h (by decide),
   by decide, rfl⟩

/-- C2 amended: whenever the defensive-attack branch is reached AND
`my_energy ≥ 1`, the threatening-neighbor subset is non-empty and the branch
attacks (the fallback is unreachable); the original claim fails only for
`my_energy ≤ 0` (see the counterexample at `my_energy = 0`). -/
theorem claim_C2_amended_nonempty (p : PyVal) (e : Int) (ns : List (String × Int))
    (m : List (String × PyVal)) (hm : WtMem m = true) (he : 1 ≤ e)
    (hth : 0 < threatsOf e ns)
    (hem : ¬(2 ≤ threatsOf e ns ∧ e ≤ 4)) (hgr : ¬(10 ≤ e)) :
    threateningOf e ns ≠ [] ∧
    ∃ d m', choose_action (mkObs p e ns) (PyVal.dict m) =
      .ok (actAttack d, .dict m') := by
  have hne : threateningOf e ns ≠ [] := by
    have hlen : 0 < (ns.filter (fun q => decide (e ≤ q.2))).length := hth
    rw [List.length_pos] at hlen
    obtain ⟨q, hq⟩ := List.exists_mem_of_ne_nil _ hlen
    rw [List.mem_filter, decide_eq_true_eq] at hq
    apply List.ne_nil_of_mem (a := q)
    unfold threateningOf
    rw [List.mem_filter, decide_eq_true_eq]
    exact ⟨hq.1, by omega, by omega⟩
  obtain ⟨t, ts, hth_eq⟩ : ∃ t ts, threateningOf e ns = t :: ts := by
    cases h : threateningOf e ns with
    | nil => exact absurd h hne
    | cons t ts => exact ⟨t, ts, rfl⟩
  refine ⟨hne, (pyMinAux t ts).1, bump (bookkeeping p m) "defensive_attacks", ?_⟩
  rw [choose_action_mkObs p e ns m hm]
  unfold chooseActionT
  rw [if_neg hem, if_neg hgr, if_pos hth, hth_eq]
  rfl

/-- Witness for the amended C2: energy 5 with one equal-energy neighbor. -/
theorem claim_C2_amended_nonempty_witness :
    (WtMem [] = true ∧ (1 : Int) ≤ 5 ∧ 0 < threatsOf 5 [("N", 5)] ∧
      ¬(2 ≤ threatsOf 5 [("N", 5)] ∧ (5 : Int) ≤ 4) ∧ ¬((10 : Int) ≤ 5)) ∧
    (threateningOf 5 [("N", 5)] ≠ [] ∧
     ∃ d m', choose_action (mkObs (.str "p") 5 [("N", 5)]) (PyVal.dict []) =
       .ok (actAttack d, .dict m')) :=
  ⟨⟨by decide, by decide, by decide,
      by rintro ⟨h, -⟩; exact absurd h (by decide), by decide⟩,
   claim_C2_amended_nonempty (.str "p") 5 [("N", 5)] [] (by decide) (by decide)
     (by decide) (by rintro ⟨h, -⟩; exact absurd h (by decide)) (by decide)⟩

/-- Specification of Python's `min(..., key=...)`: the result is an element of
the list, no element has a smaller key, and every element strictly before the
result has a strictly larger key (first minimum wins ties). -/
theorem pyMinAux_spec (t : String × Int) (ts : List (String × Int)) :
    pyMinAux t ts ∈ t :: ts ∧
    (∀ r ∈ t :: ts, (pyMinAux t ts).2 ≤ r.2) ∧
    ∃ pre post, t :: ts = pre ++ pyMinAux t ts :: post ∧
      ∀ r ∈ pre, (pyMinAux t ts).2 < r.2 := by
  induction ts generalizing t with
  | nil =>
      refine ⟨by simp [pyMinAux], ?_, [], [], by simp [pyMinAux], by simp⟩
      intro r hr
      rw [List.mem_singleton] at hr
      subst hr
      exact le_refl _
  | cons x xs ih =>
      rw [show pyMinAux t (x :: xs) = pyMinAux (if x.2 < t.2 then x else t) xs from rfl]
      by_cases hx : x.2 < t.2
      · rw [if_pos hx]
        obtain ⟨hmem, hmin, pre, post, hsplit, hpre⟩ := ih x
        refine ⟨List.mem_cons_of_mem t hmem, ?_, t :: pre, post, ?_, ?_⟩
        · intro r hr
          rcases List.mem_cons.mp hr with rfl | hr2
          · have h := hmin x (List.mem_cons_self x xs)
            omega
          · exact hmin r hr2
        · rw [List.cons_append, ← hsplit]
        · intro r hr
          rcases List.mem_cons.mp hr with rfl | hr2
          · have h := hmin x (List.mem_cons_self x xs)
            omega
          · exact hpre r hr2
      · rw [if_neg hx]
        obtain ⟨hmem, hmin, pre, post, hsplit, hpre⟩ := ih t
        set q := pyMinAux t xs with hq
        have hxt : t.2 ≤ x.2 := by omega
        have hmint : q.2 ≤ t.2 := hmin t (List.mem_cons_self t xs)
        refine ⟨?_, ?_, ?_⟩
        · rcases List.mem_cons.mp hmem with h | h
          · rw [h]; exact List.mem_cons_self t (x :: xs)
          · exact List.mem_cons_of_mem t (List.mem_cons_of_mem x h)
        · intro r hr
          rcases List.mem_cons.mp hr with rfl | hr2
          · exact hmint
          · rcases List.mem_cons.mp hr2 with rfl | hr3
            · omega
            · exact hmin r (List.mem_cons_of_mem t hr3)
        · cases pre with
          | nil =>
              simp only [List.nil_append, List.cons.injEq] at hsplit
              obtain ⟨h1, h2⟩ := hsplit
              refine ⟨[], x :: xs, ?_, by simp⟩
              rw [← h1]
              rfl
          | cons a pre2 =>
              simp only [List.cons_append, List.cons.injEq] at hsplit
              obtain ⟨h1, h2⟩ := hsplit
              rw [← h1] at hpre
              refine ⟨t :: x :: pre2, post, ?_, ?_⟩
              · conv_lhs => rw [h2]
                rfl
              · intro r hr
                rcases List.mem_cons.mp hr with rfl | hr2
                · exact hpre r (List.mem_cons_self r pre2)
                · rcases List.mem_cons.mp hr2 with rfl | hr3
                  · have h := hpre t (List.mem_cons_self t pre2)
                    omega
                  · exact hpre r (List.mem_cons_of_mem t hr3)

/-- C5: whenever the defensive-attack branch fires with a non-empty
threatening subset, the action attacks the direction of minimum energy among
the threatening neighbors — ties broken by the first minimum in iteration
order — and `defensive_attacks` is incremented by exactly 1.  (The witness
instantiates the claim's `{N: 5, S: 3}`, `my_energy = 5` example, where the
target is `S`.) -/
theorem claim_C5_defensive_attack_min (p : PyVal) (e : Int)
    (ns : List (String × Int)) (m : List (String × PyVal)) (hm : WtMem m = true)
    (hth : 0 < threatsOf e ns)
    (hem : ¬(2 ≤ threatsOf e ns ∧ e ≤ 4)) (hgr : ¬(10 ≤ e))
    (hne : threateningOf e ns ≠ []) :
    ∃ q pre post m',
      choose_action (mkObs p e ns) (PyVal.dict m) = .ok (actAttack q.1, .dict m') ∧
      threateningOf e ns = pre ++ q :: post ∧
      (∀ r ∈ threateningOf e ns, q.2 ≤ r.2) ∧
      (∀ r ∈ pre, q.2 < r.2) ∧
      dictGet m' "defensive_attacks" =
        some (.int (pyGetIntD m "defensive_attacks" 0 + 1)) := by
  obtain ⟨t, ts, hth_eq⟩ : ∃ t ts, threateningOf e ns = t :: ts := by
    cases h : threateningOf e ns with
    | nil => exact absurd h hne
    | cons t ts => exact ⟨t, ts, rfl⟩
  obtain ⟨hmem, hmin, pre, post, hsplit, hpre⟩ := pyMinAux_spec t ts
  refine ⟨pyMinAux t ts, pre, post, bump (bookkeeping p m) "defensive_attacks",
    ?_, ?_, ?_, hpre, ?_⟩
  · rw [choose_action_mkObs p e ns m hm]
    unfold chooseActionT
    rw [if_neg hem, if_neg hgr, if_pos hth, hth_eq]
    rfl
  · rw [hth_eq]; exact hsplit
  · rw [hth_eq]; exact hmin
  · rw [dictGet_bump_self,
      pyGetIntD_congr _ m _ 0 (dictGet_bookkeeping_other p m _ (by decide) (by decide))]

/-- Witness for C5 at the spec's example `{N: 5, S: 3}` with `my_energy = 5`;
the last conjunct checks the concrete target is `S`. -/
theorem claim_C5_defensive_attack_min_witness :
    (WtMem [] = true ∧ 0 < threatsOf 5 [("N", 5), ("S", 3)] ∧
      ¬(2 ≤ threatsOf 5 [("N", 5), ("S", 3)] ∧ (5 : Int) ≤ 4) ∧
      ¬((10 : Int) ≤ 5) ∧ threateningOf 5 [("N", 5), ("S", 3)] ≠ []) ∧
    (∃ q pre post m',
      choose_action (mkObs (.str "p") 5 [("N", 5), ("S", 3)]) (PyVal.dict []) =
        .ok (actAttack q.1, .dict m') ∧
      threateningOf 5 [("N", 5), ("S", 3)] = pre ++ q :: post ∧
      (∀ r ∈ threateningOf 5 [("N", 5), ("S", 3)], q.2 ≤ r.2) ∧
      (∀ r ∈ pre, q.2 < r.2) ∧
      dictGet m' "defensive_attacks" =
        some (.int (pyGetIntD [] "defensive_attacks" 0 + 1))) ∧
    (∃ m', choose_action (mkObs (.str "p") 5 [("N", 5), ("S", 3)]) (PyVal.dict []) =
      .ok (actAttack "S", .dict m')) :=
  ⟨⟨by decide, by decide, by decide, by decide, by decide⟩,
   claim_C5_defensive_attack_min (.str "p") 5 [("N", 5), ("S", 3)] []
     (by decide) (by decide) (by decide) (by decide) (by decide),
   ⟨_, rfl⟩⟩

/-- C9: `choose_action` is total over partial memories — on any memory whose
tracked fields are absent or well-typed (in particular the empty memory
returned by a failed `load_memory`), it succeeds, treats a missing
`turns_played` as 0 and a missing `positions_visited` as the empty list
(`pyGetIntD` / `pyGetListD` default absent keys), and any counter it touches
is the absent-as-0 value plus one. -/
theorem claim_C9_total_on_partial_memory (p : PyVal) (e : Int)
    (ns : List (String × Int)) (m : List (String × PyVal)) (hm : WtMem m = true) :
    ∃ a m', choose_action (mkObs p e ns) (PyVal.dict m) = .ok (a, .dict m') ∧
      dictGet m' "turns_played" = some (.int (pyGetIntD m "turns_played" 0 + 1)) ∧
      dictGet m' "positions_visited" =
        some (.list (lastN 20 (pyGetListD m "positions_visited" ++ [p]))) ∧
      ∀ k, (k = "replications_made" ∨ k = "emergency_replications" ∨
            k = "defensive_attacks" ∨ k = "peaceful_rests") →
        dictGet m' k = dictGet m k ∨
        dictGet m' k = some (.int (pyGetIntD m k 0 + 1)) := by
  refine ⟨(chooseActionT p e ns m).1, (chooseActionT p e ns m).2,
    by rw [choose_action_mkObs p e ns m hm]; rfl, ?_, ?_, ?_⟩
  · rcases chooseActionT_snd_cases p e ns m with h | ⟨k', hk', h⟩
    · rw [h, dictGet_bookkeeping_tp]
    · rw [h, dictGet_bump_ne _ _ _ (by rcases hk' with rfl | rfl | rfl | rfl <;> decide),
        dictGet_bookkeeping_tp]
  · rcases chooseActionT_snd_cases p e ns m with h | ⟨k', hk', h⟩
    · rw [h, dictGet_bookkeeping_pv]
    · rw [h, dictGet_bump_ne _ _ _ (by rcases hk' with rfl | rfl | rfl | rfl <;> decide),
        dictGet_bookkeeping_pv]
  · intro k hk
    rcases chooseActionT_snd_cases p e ns m with h | ⟨k', hk', h⟩
    · left
      rw [h, dictGet_bookkeeping_other p m k
        (by rcases hk with rfl | rfl | rfl | rfl <;> decide)
        (by rcases hk with rfl | rfl | rfl | rfl <;> decide)]
    · by_cases hkk : k' = k
      · subst hkk
        right
        rw [h, dictGet_bump_self, pyGetIntD_congr _ m _ 0
          (dictGet_bookkeeping_other p m _
            (by rcases hk with rfl | rfl | rfl | rfl <;> decide)
            (by rcases hk with rfl | rfl | rfl | rfl <;> decide))]
      · left
        rw [h, dictGet_bump_ne _ _ _ hkk, dictGet_bookkeeping_other p m k
          (by rcases hk with rfl | rfl | rfl | rfl <;> decide)
          (by rcases hk with rfl | rfl | rfl | rfl <;> decide)]

/-- Witness for C9: the empty memory (as returned by `load_memory` after a
missing or corrupt file). -/
theorem claim_C9_total_on_partial_memory_witness :
    WtMem [] = true ∧ load_memory none = PyVal.dict [] ∧
    ∃ a m', choose_action (mkObs (.str "p") 1 [("N", 2)]) (PyVal.dict []) =
        .ok (a, .dict m') ∧
      dictGet m' "turns_played" = some (.int (pyGetIntD [] "turns_played" 0 + 1)) ∧
      dictGet m' "positions_visited" =
        some (.list (lastN 20 (pyGetListD [] "positions_visited" ++ [.str "p"]))) ∧
      ∀ k, (k = "replications_made" ∨ k = "emergency_replications" ∨
            k = "defensive_attacks" ∨ k = "peaceful_rests") →
        dictGet m' k = dictGet [] k ∨
        dictGet m' k = some (.int (pyGetIntD [] k 0 + 1)) :=
  ⟨by decide, rfl,
   claim_C9_total_on_partial_memory (.str "p") 1 [("N", 2)] [] (by decide)⟩


/-- One of the four branch-counter keys. -/
def counterKey (k : String) : Prop :=
  k = "replications_made" ∨ k = "emergency_replications" ∨
  k = "defensive_attacks" ∨ k = "peaceful_rests"

theorem error_bind {α β : Type} (s : String) (f : α → Except String β) :
    ((Except.error s : Except String α) >>= f) = .error s := rfl

/-- Structure of a successful `bumpCounter` leaf of `choose_action`. -/
theorem bind_bump_ok {M m' : List (String × PyVal)} {k : String} {act a : PyVal}
    (h : (bumpCounter M k >>= fun mem3 => Except.ok (act, PyVal.dict mem3)) =
      Except.ok (a, PyVal.dict m')) :
    a = act ∧ ∃ v : PyVal, m' = dictSet M k v := by
  unfold bumpCounter at h
  cases h9 : getIntD M k 0 with
  | error s =>
      rw [h9] at h
      rw [show ((Except.error s >>= fun n => Except.ok (dictSet M k (PyVal.int (n + 1)))) >>= fun mem3 => Except.ok (act, PyVal.dict mem3)) = (Except.error s : Except String (PyVal × PyVal)) from rfl] at h
      simp at h
  | ok n =>
      rw [h9] at h
      rw [show ((Except.ok n >>= fun n => Except.ok (dictSet M k (PyVal.int (n + 1)))) >>= fun mem3 => Except.ok (act, PyVal.dict mem3)) = Except.ok (act, PyVal.dict (dictSet M k (PyVal.int (n + 1)))) from rfl] at h
      simp only [Except.ok.injEq, Prod.mk.injEq, PyVal.dict.injEq] at h
      exact ⟨h.1.symm, .int (n + 1), h.2.symm⟩

/-- Frame facts for an output memory that only rewrote the two bookkeeping
keys. -/
theorem frame_noCounter (m : List (String × PyVal)) (v1 v2 : PyVal) :
    (∀ k, k ≠ "turns_played" → k ≠ "positions_visited" → ¬counterKey k →
      dictGet (dictSet (dictSet m "turns_played" v1) "positions_visited" v2) k =
        dictGet m k) ∧
    ∀ k, counterKey k →
      dictGet (dictSet (dictSet m "turns_played" v1) "positions_visited" v2) k =
        dictGet m k := by
  constructor
  · intro k h1 h2 _
    rw [dictGet_dictSet, if_neg (Ne.symm h2), dictGet_dictSet, if_neg (Ne.symm h1)]
  · intro k hk
    rcases hk with rfl | rfl | rfl | rfl <;>
      rw [dictGet_dictSet, if_neg (by decide), dictGet_dictSet, if_neg (by decide)]

/-- Frame facts for an output memory that rewrote the two bookkeeping keys and
one branch counter `k0`. -/
theorem frame_withCounter (m : List (String × PyVal)) (v1 v2 v3 : PyVal)
    (k0 : String) (hk0 : counterKey k0) :
    (∀ k, k ≠ "turns_played" → k ≠ "positions_visited" → ¬counterKey k →
      dictGet (dictSet (dictSet (dictSet m "turns_played" v1) "positions_visited" v2) k0 v3) k =
        dictGet m k) ∧
    ∀ k, counterKey k → k ≠ k0 →
      dictGet (dictSet (dictSet (dictSet m "turns_played" v1) "positions_visited" v2) k0 v3) k =
        dictGet m k := by
  constructor
  · intro k h1 h2 h3
    have hk0k : k0 ≠ k := by
      intro he; exact h3 (he ▸ hk0)
    rw [dictGet_dictSet, if_neg hk0k, dictGet_dictSet, if_neg (Ne.symm h2),
      dictGet_dictSet, if_neg (Ne.symm h1)]
  · intro k hk hne
    rw [dictGet_dictSet, if_neg (Ne.symm hne)]
    rcases hk with rfl | rfl | rfl | rfl <;>
      rw [dictGet_dictSet, if_neg (by decide), dictGet_dictSet, if_neg (by decide)]

/-- C10 conclusion for an output memory that only rewrote the bookkeeping
keys. -/
theorem frame_conclusion_noCounter (m m' : List (String × PyVal)) (v1 v2 : PyVal)
    (hm' : m' = dictSet (dictSet m "turns_played" v1) "positions_visited" v2) :
    (∀ k, k ≠ "turns_played" → k ≠ "positions_visited" → ¬counterKey k →
      dictGet m' k = dictGet m k) ∧
    ∀ k1 k2, counterKey k1 → counterKey k2 →
      dictGet m' k1 ≠ dictGet m k1 → dictGet m' k2 ≠ dictGet m k2 → k1 = k2 := by
  obtain ⟨hfr, hsame⟩ := frame_noCounter m v1 v2
  subst hm'
  refine ⟨hfr, ?_⟩
  intro k1 k2 hc1 hc2 hd1 hd2
  exact absurd (hsame k1 hc1) hd1

/-- C10 conclusion for an output memory that rewrote the bookkeeping keys and
one branch counter. -/
theorem frame_conclusion_withCounter (m m' : List (String × PyVal))
    (v1 v2 v3 : PyVal) (k0 : String) (hk0 : counterKey k0)
    (hm' : m' = dictSet (dictSet (dictSet m "turns_played" v1) "positions_visited" v2) k0 v3) :
    (∀ k, k ≠ "turns_played" → k ≠ "positions_visited" → ¬counterKey k →
      dictGet m' k = dictGet m k) ∧
    ∀ k1 k2, counterKey k1 → counterKey k2 →
      dictGet m' k1 ≠ dictGet m k1 → dictGet m' k2 ≠ dictGet m k2 → k1 = k2 := by
  obtain ⟨hfr, honly⟩ := frame_withCounter m v1 v2 v3 k0 hk0
  subst hm'
  refine ⟨hfr, ?_⟩
  intro k1 k2 hc1 hc2 hd1 hd2
  by_cases e1 : k1 = k0
  · by_cases e2 : k2 = k0
    · rw [e1, e2]
    · exact absurd (honly k2 hc2 e2) hd2
  · exact absurd (honly k1 hc1 e1) hd1

/-- C10: a successful `choose_action` call changes only `turns_played`,
`positions_visited` and at most one of the four branch counters; every other
key of the input memory keeps its value in the output memory. -/
theorem claim_C10_frame (o : PyVal) (m : List (String × PyVal)) (a : PyVal)
    (m' : List (String × PyVal))
    (h : choose_action o (PyVal.dict m) = .ok (a, .dict m')) :
    (∀ k, k ≠ "turns_played" → k ≠ "positions_visited" → ¬counterKey k →
      dictGet m' k = dictGet m k) ∧
    ∀ k1 k2, counterKey k1 → counterKey k2 →
      dictGet m' k1 ≠ dictGet m k1 → dictGet m' k2 ≠ dictGet m k2 → k1 = k2 := by
  unfold choose_action at h
  cases h0 : asDict o with
  | error s => rw [h0, error_bind] at h; simp at h
  | ok ws =>
  rw [h0, ok_bind] at h
  cases h1 : getItem ws "neighbors" with
  | error s => rw [h1, error_bind] at h; simp at h
  | ok nV =>
  rw [h1, ok_bind] at h
  cases h2 : getItem ws "energy" with
  | error s => rw [h2, error_bind] at h; simp at h
  | ok eV =>
  rw [h2, ok_bind] at h
  cases h3 : asInt eV with
  | error s => rw [h3, error_bind] at h; simp at h
  | ok e =>
  rw [h3, ok_bind] at h
  cases h4 : getItem ws "position" with
  | error s => rw [h4, error_bind] at h; simp at h
  | ok p =>
  rw [h4, ok_bind] at h
  rw [show asDict (PyVal.dict m) = .ok m from rfl, ok_bind] at h
  cases h5 : getIntD m "turns_played" 0 with
  | error s => rw [h5, error_bind] at h; simp at h
  | ok tp =>
  rw [h5, ok_bind] at h
  simp only [] at h
  cases h6 : getListD (dictSet m "turns_played" (PyVal.int (tp + 1)))
      "positions_visited" [] with
  | error s => rw [h6, error_bind] at h; simp at h
  | ok pv =>
  rw [h6, ok_bind] at h
  cases h7 : asDict nV with
  | error s => rw [h7, error_bind] at h; simp at h
  | ok nbrs =>
  rw [h7, ok_bind] at h
  cases h8 : neighborEnergies nbrs with
  | error s => rw [h8, error_bind] at h; simp at h
  | ok ens =>
  rw [h8, ok_bind] at h
  generalize hM : dictSet (dictSet m "turns_played" (PyVal.int (tp + 1)))
      "positions_visited" (PyVal.list (lastN 20 (pv ++ [p]))) = M at h
  split at h
  · split at h
    · obtain ⟨ha, v, hm'⟩ := bind_bump_ok h
      rw [← hM] at hm'
      exact frame_conclusion_withCounter m m' _ _ v _ (by simp [counterKey]) hm'
    · simp only [Except.ok.injEq, Prod.mk.injEq, PyVal.dict.injEq] at h
      exact frame_conclusion_noCounter m m' _ _ (h.2.symm.trans hM.symm)
  · split at h
    · obtain ⟨ha, v, hm'⟩ := bind_bump_ok h
      rw [← hM] at hm'
      exact frame_conclusion_withCounter m m' _ _ v _ (by simp [counterKey]) hm'
    · split at h
      · split at h
        · simp only [Except.ok.injEq, Prod.mk.injEq, PyVal.dict.injEq] at h
          exact frame_conclusion_noCounter m m' _ _ (h.2.symm.trans hM.symm)
        · obtain ⟨ha, v, hm'⟩ := bind_bump_ok h
          rw [← hM] at hm'
          exact frame_conclusion_withCounter m m' _ _ v _ (by simp [counterKey]) hm'
      · obtain ⟨ha, v, hm'⟩ := bind_bump_ok h
        rw [← hM] at hm'
        exact frame_conclusion_withCounter m m' _ _ v _ (by simp [counterKey]) hm'

/-- Witness for C10: a concrete successful call on a memory carrying an
unrelated key `extra`, which is preserved. -/
theorem claim_C10_frame_witness :
    choose_action (mkObs (.str "p") 1 []) (PyVal.dict [("extra", .str "v")]) =
      .ok (actRest, .dict [("extra", .str "v"), ("turns_played", .int 1),
        ("positions_visited", .list [.str "p"]), ("peaceful_rests", .int 1)]) ∧
    ((∀ k, k ≠ "turns_played" → k ≠ "positions_visited" → ¬counterKey k →
      dictGet [("extra", .str "v"), ("turns_played", .int 1),
        ("positions_visited", .list [.str "p"]), ("peaceful_rests", .int 1)] k =
        dictGet [("extra", .str "v")] k) ∧
    ∀ k1 k2, counterKey k1 → counterKey k2 →
      dictGet [("extra", .str "v"), ("turns_played", .int 1),
        ("positions_visited", .list [.str "p"]), ("peaceful_rests", .int 1)] k1 ≠
        dictGet [("extra", .str "v")] k1 →
      dictGet [("extra", .str "v"), ("turns_played", .int 1),
        ("positions_visited", .list [.str "p"]), ("peaceful_rests", .int 1)] k2 ≠
        dictGet [("extra", .str "v")] k2 → k1 = k2) := by
  have h : choose_action (mkObs (.str "p") 1 []) (PyVal.dict [("extra", .str "v")]) =
      .ok (actRest, .dict [("extra", .str "v"), ("turns_played", .int 1),
        ("positions_visited", .list [.str "p"]), ("peaceful_rests", .int 1)]) := rfl
  exact ⟨h, claim_C10_frame _ _ _ _ h⟩

/-! ## The sliding position window -/

theorem lastN_eq_reverse (n : Nat) (xs : List PyVal) :
    lastN n xs = (xs.reverse.take n).reverse := by
  rw [show lastN n xs = xs.rtake n from rfl, List.rtake_eq_reverse_take_reverse]

theorem lastN_length_le (n : Nat) (xs : List PyVal) : (lastN n xs).length ≤ n := by
  unfold lastN
  rw [List.length_drop]
  omega

theorem lastN_length_of_le (n : Nat) (xs : List PyVal) (h : n ≤ xs.length) :
    (lastN n xs).length = n := by
  unfold lastN
  rw [List.length_drop]
  omega

/-- Truncating, appending and truncating again is the same as truncating the
full history: the 20-window is a function of the full position history. -/
theorem lastN_lastN_append (n : Nat) (xs ys : List PyVal) :
    lastN n (lastN n xs ++ ys) = lastN n (xs ++ ys) := by
  simp only [lastN_eq_reverse]
  rw [List.reverse_append, List.reverse_append, List.reverse_reverse,
    List.take_append_eq_append_take, List.take_append_eq_append_take,
    List.take_take, Nat.min_eq_left (Nat.sub_le n _)]

theorem WtMem_intro (m : List (String × PyVal))
    (h1 : isIntOpt (dictGet m "turns_played") = true)
    (h2 : isListOpt (dictGet m "positions_visited") = true)
    (h3 : isIntOpt (dictGet m "replications_made") = true)
    (h4 : isIntOpt (dictGet m "emergency_replications") = true)
    (h5 : isIntOpt (dictGet m "defensive_attacks") = true)
    (h6 : isIntOpt (dictGet m "peaceful_rests") = true) : WtMem m = true := by
  unfold WtMem
  rw [h1, h2, h3, h4, h5, h6]
  rfl

theorem WtMem_bookkeeping (p : PyVal) (m : List (String × PyVal))
    (hm : WtMem m = true) : WtMem (bookkeeping p m) = true := by
  obtain ⟨hm1, hm2, hm3, hm4, hm5, hm6⟩ := WtMem_parts hm
  apply WtMem_intro
  · rw [dictGet_bookkeeping_tp]; rfl
  · rw [dictGet_bookkeeping_pv]; rfl
  · rw [dictGet_bookkeeping_other _ _ _ (by decide) (by decide)]; exact hm3
  · rw [dictGet_bookkeeping_other _ _ _ (by decide) (by decide)]; exact hm4
  · rw [dictGet_bookkeeping_other _ _ _ (by decide) (by decide)]; exact hm5
  · rw [dictGet_bookkeeping_other _ _ _ (by decide) (by decide)]; exact hm6

theorem WtMem_bump (m : List (String × PyVal)) (k : String)
    (hm : WtMem m = true) (hk : k ≠ "positions_visited") :
    WtMem (bump m k) = true := by
  obtain ⟨hm1, hm2, hm3, hm4, hm5, hm6⟩ := WtMem_parts hm
  apply WtMem_intro
  · by_cases h : k = "turns_played"
    · subst h; rw [dictGet_bump_self]; rfl
    · rw [dictGet_bump_ne _ _ _ h]; exact hm1
  · rw [dictGet_bump_ne _ _ _ hk]; exact hm2
  · by_cases h : k = "replications_made"
    · subst h; rw [dictGet_bump_self]; rfl
    · rw [dictGet_bump_ne _ _ _ h]; exact hm3
  · by_cases h : k = "emergency_replications"
    · subst h; rw [dictGet_bump_self]; rfl
    · rw [dictGet_bump_ne _ _ _ h]; exact hm4
  · by_cases h : k = "defensive_attacks"
    · subst h; rw [dictGet_bump_self]; rfl
    · rw [dictGet_bump_ne _ _ _ h]; exact hm5
  · by_cases h : k = "peaceful_rests"
    · subst h; rw [dictGet_bump_self]; rfl
    · rw [dictGet_bump_ne _ _ _ h]; exact hm6

theorem WtMem_chooseActionT (p : PyVal) (e : Int) (ns : List (String × Int))
    (m : List (String × PyVal)) (hm : WtMem m = true) :
    WtMem (chooseActionT p e ns m).2 = true := by
  rcases chooseActionT_snd_cases p e ns m with h | ⟨k, hk, h⟩
  · rw [h]; exact WtMem_bookkeeping p m hm
  · rw [h]
    exact WtMem_bump _ _ (WtMem_bookkeeping p m hm)
      (by rcases hk with rfl | rfl | rfl | rfl <;> decide)

theorem pv_chooseActionT (p : PyVal) (e : Int) (ns : List (String × Int))
    (m : List (String × PyVal)) :
    dictGet (chooseActionT p e ns m).2 "positions_visited" =
      some (.list (lastN 20 (pyGetListD m "positions_visited" ++ [p]))) := by
  rcases chooseActionT_snd_cases p e ns m with h | ⟨k, hk, h⟩
  · rw [h, dictGet_bookkeeping_pv]
  · rw [h, dictGet_bump_ne _ _ _ (by rcases hk with rfl | rfl | rfl | rfl <;> decide),
      dictGet_bookkeeping_pv]

theorem pyGetListD_of_dictGet (m : List (String × PyVal)) (k : String)
    (L : List PyVal) (h : dictGet m k = some (.list L)) : pyGetListD m k = L := by
  unfold pyGetListD
  rw [h]

/-- Invariant of the iterated decision engine: after running a list of
well-formed observations from a well-typed memory, the memory is well typed,
and `positions_visited` is the 20-window of the full position history. -/
theorem iterDecide_positions (ts : List (PyVal × Int × List (String × Int))) :
    ∀ m : List (String × PyVal), WtMem m = true →
    ∃ m', iterDecide (ts.map (fun t => mkObs t.1 t.2.1 t.2.2)) (PyVal.dict m) =
        .ok (PyVal.dict m') ∧ WtMem m' = true ∧
      (ts = [] → m' = m) ∧
      (ts ≠ [] → dictGet m' "positions_visited" =
        some (.list (lastN 20
          (pyGetListD m "positions_visited" ++ ts.map (fun t => t.1))))) := by
  induction ts with
  | nil =>
      intro m hm
      exact ⟨m, rfl, hm, fun _ => rfl, fun h => absurd rfl h⟩
  | cons t rest ih =>
      intro m hm
      have heq := choose_action_mkObs t.1 t.2.1 t.2.2 m hm
      have hwt1 := WtMem_chooseActionT t.1 t.2.1 t.2.2 m hm
      obtain ⟨m', hrun, hwt', hnil, hcons⟩ := ih (chooseActionT t.1 t.2.1 t.2.2 m).2 hwt1
      refine ⟨m', ?_, hwt', fun h => absurd h (List.cons_ne_nil t rest), ?_⟩
      · simp only [List.map_cons, iterDecide, heq, okPair, ok_bind]
        exact hrun
      · intro _
        by_cases hre : rest = []
        · subst hre
          rw [hnil rfl, pv_chooseActionT]
          simp
        · rw [hcons hre,
            pyGetListD_of_dictGet _ _ _ (pv_chooseActionT t.1 t.2.1 t.2.2 m),
            lastN_lastN_append]
          simp

/-- C4: starting from the empty memory, after any sequence of decision calls
the `positions_visited` list has length at most 20, and after more than 20
turns it is exactly the 20 most recently observed positions in chronological
order (oldest first, i.e. the last 20 entries of the full history). -/
theorem claim_C4_positions_window (ts : List (PyVal × Int × List (String × Int))) :
    ∃ m', iterDecide (ts.map (fun t => mkObs t.1 t.2.1 t.2.2)) (PyVal.dict []) =
        .ok (PyVal.dict m') ∧
      (∀ pv, dictGet m' "positions_visited" = some (.list pv) → pv.length ≤ 20) ∧
      (20 < ts.length →
        dictGet m' "positions_visited" =
          some (.list (lastN 20 (ts.map (fun t => t.1)))) ∧
        (lastN 20 (ts.map (fun t => t.1))).length = 20) := by
  obtain ⟨m', hrun, hwt, hnil, hcons⟩ := iterDecide_positions ts [] (by decide)
  refine ⟨m', hrun, ?_, ?_⟩
  · intro pv hpv
    by_cases hts : ts = []
    · subst hts
      rw [hnil rfl] at hpv
      exact nomatch hpv
    · rw [hcons hts] at hpv
      simp only [Option.some.injEq, PyVal.list.injEq] at hpv
      rw [← hpv]
      exact lastN_length_le _ _
  · intro hlen
    have hts : ts ≠ [] := by
      intro h
      rw [h] at hlen
      exact absurd hlen (by decide)
    refine ⟨?_, ?_⟩
    · rw [hcons hts]
      rfl
    · apply lastN_length_of_le
      rw [List.length_map]
      omega

/-- 21 turns at positions 0..20, energy 1, no neighbors. -/
def obs21 : List (PyVal × Int × List (String × Int)) :=
  (List.range 21).map (fun i => (PyVal.int i, 1, []))

/-- Witness for C4: 21 turns at distinct positions from the empty memory. -/
theorem claim_C4_positions_window_witness :
    20 < obs21.length ∧
    ∃ m', iterDecide (obs21.map (fun t => mkObs t.1 t.2.1 t.2.2)) (PyVal.dict []) =
        .ok (PyVal.dict m') ∧
      (∀ pv, dictGet m' "positions_visited" = some (.list pv) → pv.length ≤ 20) ∧
      (20 < obs21.length →
        dictGet m' "positions_visited" =
          some (.list (lastN 20 (obs21.map (fun t => t.1)))) ∧
        (lastN 20 (obs21.map (fun t => t.1))).length = 20) :=
  ⟨by decide, claim_C4_positions_window obs21⟩

/-! ## The outer loop -/

/-- C1 counterexample: on the input stream `[malformed line, valid line]` the
loop prints the single fallback action and terminates — the valid second line
is never processed, although it would have produced an action.  The
`try/except` in `main` encloses the whole `for` loop, so the exception ends
the loop instead of continuing with the next line. -/
theorem claim_C1_counterexample :
    (mainLoop [Except.error "Expecting value", Except.ok (mkObs (.str "p") 1 [])]
        (PyVal.dict []) none).1 = [errAction "Expecting value"] ∧
    (∃ a m', choose_action (mkObs (.str "p") 1 []) (PyVal.dict []) = .ok (a, m')) ∧
    (mainLoop [Except.error "Expecting value", Except.ok (mkObs (.str "p") 1 [])]
        (PyVal.dict []) none).1.length ≠ 2 :=
  ⟨rfl, ⟨_, _, rfl⟩, by decide⟩

/-- C1 amended: when processing a line fails — the line does not parse, or the
decision raises — the agent emits exactly the fallback action
`{action: rest, message: "Error: <description>"}` and the loop terminates,
processing no further lines (and leaving the persisted file untouched for
that turn). -/
theorem claim_C1_amended_fallback_then_stop (l : Line) (post : List Line)
    (memory : PyVal) (fs : FileState) (e : String)
    (hfail : l = .error e ∨ ∃ o, l = .ok o ∧ choose_action o memory = .error e) :
    mainLoop (l :: post) memory fs = ([errAction e], fs) := by
  rcases hfail with rfl | ⟨o, rfl, hdec⟩
  · rfl
  · simp only [mainLoop, hdec]

/-- Witness for the amended C1: a malformed first line followed by a valid
line; only the fallback is printed. -/
theorem claim_C1_amended_fallback_then_stop_witness :
    mainLoop [Except.error "bad", Except.ok (mkObs (.str "p") 1 [])]
      (PyVal.dict []) none = ([errAction "bad"], none) :=
  claim_C1_amended_fallback_then_stop _ _ _ _ "bad" (Or.inl rfl)

end PythonAgent
